import Mathlib

set_option maxHeartbeats 1000000

/-!
Verification of the login-orchestration script `scripts/auto_login.py`
(ClawCloud-Run repository).  The Python classes `Hysteria2Proxy`, `Telegram`,
`SecretUpdater` and `AutoLogin` are shallowly embedded as pure Lean
functions.  External collaborators (browser pages, HTTP transports) are
represented by explicit environment values (URL traces, poll responses,
status codes) passed to the embedded functions.
-/

namespace ClawAutoLogin

/-! ## Python string primitives used by the script -/

/-- Python truthiness of a string: non-empty. -/
def pyTruthyStr (s : String) : Bool := !s.toList.isEmpty

/-- Python truthiness of an optional string (`os.environ.get` result):
`None` and the empty string are falsy. -/
def pyTruthy : Option String → Bool
  | none => false
  | some s => pyTruthyStr s

/-- Substring occurrence on character lists, the semantics of Python's
`needle in hay` for strings. -/
def hasSubL (needle : List Char) : List Char → Bool
  | [] => needle.isEmpty
  | c :: t => needle.isPrefixOf (c :: t) || hasSubL needle t

/-- Python `needle in hay` on strings. -/
def pyIn (needle hay : String) : Bool := hasSubL needle.toList hay.toList

/-- Python `str.lower` (ASCII range, which is all the script compares). -/
def pyLower (s : String) : String := String.mk (s.toList.map Char.toLower)

/-- The ASCII whitespace class of Python's `str.strip` / regex `\s`. -/
def pyIsSpace (c : Char) : Bool :=
  c = ' ' || c = '\t' || c = '\n' || c = '\r' || c = '\x0b' || c = '\x0c'

/-- Python `str.strip()` (ASCII whitespace). -/
def pyStrip (s : String) : String :=
  String.mk (((s.toList.dropWhile pyIsSpace).reverse.dropWhile pyIsSpace).reverse)

/-- The regex class `\d` restricted to ASCII, as matched against chat text. -/
def pyIsDigit (c : Char) : Bool := 48 ≤ c.toNat && c.toNat ≤ 57

/-! ## `Telegram` (the relay channel), lines 258-383 -/

/-- The anchored pattern `^/code\s+(\d{6,8})$` of `Telegram.wait_code`
(line 351), returning the captured digit group.  Since the whitespace and
digit classes are disjoint, the greedy regex is equivalent to this
takeWhile/dropWhile decomposition. -/
def matchCode (text : String) : Option String :=
  match text.toList with
  | '/' :: 'c' :: 'o' :: 'd' :: 'e' :: rest =>
    let sp := rest.takeWhile pyIsSpace
    let tl := rest.dropWhile pyIsSpace
    if 1 ≤ sp.length && tl.all pyIsDigit && 6 ≤ tl.length && tl.length ≤ 8 then
      some (String.mk tl)
    else none
  | _ => none

/-- One inbound update, with the fields `wait_code` reads:
`update_id`, `str(message.chat.id)` and the message text. -/
structure Update where
  updateId : Nat
  chatId : String
  text : String
deriving Repr, DecidableEq

/-- The `Telegram` object: `TG_BOT_TOKEN` and `TG_CHAT_ID` from the
environment (line 262-263). -/
structure TG where
  token : Option String
  chatId : Option String
deriving Repr, DecidableEq

/-- The `self.ok = bool(self.token and self.chat_id)` (line 264). -/
def TG.ok (tg : TG) : Bool := pyTruthy tg.token && pyTruthy tg.chatId

/-- The `str(self.chat_id)` as used in the comparison at line 370. -/
def TG.chatIdStr (tg : TG) : String :=
  match tg.chatId with
  | none => "None"
  | some s => s

/-- The inner `for upd in data["result"]` loop of `wait_code`
(lines 366-376): advance the offset past every update, skip messages from a
different chat id, return the first text matching the code pattern. -/
def processUpdates (chat : String) : Nat → List Update → Nat × Option (Update × String)
  | off, [] => (off, none)
  | _off, u :: rest =>
    let off := u.updateId + 1
    if u.chatId ≠ chat then processUpdates chat off rest
    else
      match matchCode (pyStrip u.text) with
      | some c => (off, some (u, c))
      | none => processUpdates chat off rest

/-- One `getUpdates` poll as seen by `wait_code`: a transport exception, a
response with `ok` false, or a response; for a response the environment
carries the server's pending stream. -/
inductive Poll where
  | err : Poll
  | notOk : Poll
  | stream : List Update → Poll
deriving Repr

/-- Modelled from the spec: the chat API's inbound retrieval is a
"get updates since offset" call, so a poll issued with `off` yields the
pending updates whose id is at least `off`. -/
def getUpdatesSince (l : List Update) (off : Nat) : List Update :=
  l.filter (fun u => off ≤ u.updateId)

/-- Response environment for the single `getUpdates` call made by
`flush_updates` (issued without an offset). -/
inductive FlushResp where
  | err : FlushResp
  | notOk : FlushResp
  | stream : List Update → FlushResp
deriving Repr

/-- The `Telegram.flush_updates` (lines 322-338): return
`result[-1].update_id + 1` on a non-empty successful response, else 0. -/
def flush_updates (tg : TG) (fr : FlushResp) : Nat :=
  if !tg.ok then 0
  else
    match fr with
    | .err => 0
    | .notOk => 0
    | .stream l =>
      match l.getLast? with
      | none => 0
      | some u => u.updateId + 1

/-- The `while time.time() < deadline` polling loop of `wait_code`
(lines 353-381); the poll schedule plays the role of the time budget, and
exceptions and not-ok responses are skipped. -/
def wait_code_go (chat : String) : Nat → List Poll → Option (Update × String)
  | _, [] => none
  | off, p :: rest =>
    match p with
    | .err => wait_code_go chat off rest
    | .notOk => wait_code_go chat off rest
    | .stream l =>
      match processUpdates chat off (getUpdatesSince l off) with
      | (off2, none) => wait_code_go chat off2 rest
      | (_, some r) => some r

/-- The `Telegram.wait_code` together with the update it matched: `None` when
the channel is not configured, otherwise flush the offset first and poll. -/
def wait_code_aux (tg : TG) (fr : FlushResp) (polls : List Poll) :
    Option (Update × String) :=
  if !tg.ok then none
  else wait_code_go tg.chatIdStr (flush_updates tg fr) polls

/-- The `Telegram.wait_code` (lines 340-383), returning only the code. -/
def wait_code (tg : TG) (fr : FlushResp) (polls : List Poll) : Option String :=
  (wait_code_aux tg fr polls).map (fun r => r.2)

/-- A transport attempt of `Telegram.send` / `Telegram.photo`:
first through the configured proxy, then the direct retry. -/
inductive SendAttempt where
  | proxied : SendAttempt
  | direct : SendAttempt
deriving Repr, DecidableEq

/-- The transport attempts made by `Telegram.send` (lines 276-295):
none when unconfigured; one proxied post, plus a direct retry when the
first post raises. -/
def Telegram_send (tg : TG) (proxyFails : Bool) : List SendAttempt :=
  if !tg.ok then []
  else if proxyFails then [.proxied, .direct]
  else [.proxied]

/-- The transport attempts made by `Telegram.photo` (lines 297-320),
which additionally returns early when the file does not exist. -/
def Telegram_photo (tg : TG) (pathExists : Bool) (proxyFails : Bool) :
    List SendAttempt :=
  if !tg.ok || !pathExists then []
  else if proxyFails then [.proxied, .direct]
  else [.proxied]

/-! ## URL parsing, regions (`AutoLogin.detect_region` etc.), lines 483-529 -/

/-- The fixed login entry URL (line 24). -/
def LOGIN_ENTRY_URL : String := "https://us-west-1.run.claw.cloud"

/-- The components of `urllib.parse.urlparse` that the script reads. -/
structure ParsedUrl where
  scheme : String
  netloc : String
  path : String
deriving Repr, DecidableEq

/-- Split a list at the first occurrence of `sep`; `none` when absent. -/
def splitFirstL (sep : Char) (l : List Char) : Option (List Char × List Char) :=
  if l.contains sep then
    some (l.takeWhile (fun c => c ≠ sep), (l.dropWhile (fun c => c ≠ sep)).drop 1)
  else none

/-- Split a list at the last occurrence of `sep` (Python `rsplit(sep, 1)`);
`none` when absent. -/
def splitLastL (sep : Char) (l : List Char) : Option (List Char × List Char) :=
  match splitFirstL sep l.reverse with
  | none => none
  | some (post, pre) => some (pre.reverse, post.reverse)

/-- Characters ending the netloc component of a URL. -/
def urlNotDelim3 (c : Char) : Bool := c ≠ '/' && c ≠ '?' && c ≠ '#'

/-- Characters ending the path component of a URL. -/
def urlNotDelim2 (c : Char) : Bool := c ≠ '?' && c ≠ '#'

/-- The `urllib.parse.urlparse`, for the absolute `scheme://netloc/path...`
URLs the browser reports (the only shape the script parses). -/
def urlparse (url : String) : ParsedUrl :=
  let cs := url.toList
  let sr : List Char × List Char :=
    match splitFirstL ':' cs with
    | some (pre, post) =>
      if ['/', '/'].isPrefixOf post then (pre.map Char.toLower, post) else ([], cs)
    | none => ([], cs)
  if ['/', '/'].isPrefixOf sr.2 then
    let r := sr.2.drop 2
    let netloc := r.takeWhile urlNotDelim3
    let after := r.dropWhile urlNotDelim3
    ⟨String.mk sr.1, String.mk netloc, String.mk (after.takeWhile urlNotDelim2)⟩
  else
    ⟨String.mk sr.1, "", String.mk (sr.2.takeWhile urlNotDelim2)⟩

/-- The region suffix tested at line 494. -/
def consoleSuffix : String := ".console.claw.cloud"

/-- Bounded-fuel core of `str.replace(pat, '')`: remove non-overlapping
occurrences of `pat` scanning left to right. -/
def removeSubAux (pat : List Char) : Nat → List Char → List Char
  | 0, l => l
  | _ + 1, [] => []
  | fuel + 1, c :: t =>
    if pat.isPrefixOf (c :: t) then removeSubAux pat fuel ((c :: t).drop pat.length)
    else c :: removeSubAux pat fuel t

/-- The replace-all of the console suffix by the empty string applied to
the host (line 495). -/
def removeConsoleSuffix (l : List Char) : List Char :=
  removeSubAux consoleSuffix.toList l.length l

/-- Python `hay.endswith(pat)`. -/
def endsWithL (hay pat : List Char) : Bool := pat.reverse.isPrefixOf hay.reverse

/-- The character class `[a-z]` of the region path regex. -/
def lowerAlpha (c : Char) : Bool := 'a' ≤ c && c ≤ 'z'

/-- Greedy match of the capture group `([a-z]+-[a-z]+-\d+)` at the head of
the list; since the classes exclude `-`, greedy matching with backtracking
is equivalent to taking maximal runs. -/
def regionBodyAt (cs : List Char) : Option (List Char) :=
  let a := cs.takeWhile lowerAlpha
  let r1 := cs.dropWhile lowerAlpha
  if a.isEmpty then none
  else
    match r1 with
    | '-' :: r2 =>
      let b := r2.takeWhile lowerAlpha
      let r3 := r2.dropWhile lowerAlpha
      if b.isEmpty then none
      else
        match r3 with
        | '-' :: r4 =>
          let d := r4.takeWhile pyIsDigit
          if d.isEmpty then none else some (a ++ '-' :: (b ++ '-' :: d))
        | _ => none
    | _ => none

/-- The search of the regex `/(?:region|r)/([a-z]+-[a-z]+-\d+)` over the
path (line 508): leftmost match, trying the `region` alternative before
`r` at each position. -/
def searchRegion : List Char → Option (List Char)
  | [] => none
  | '/' :: rest =>
    (match rest with
     | 'r' :: 'e' :: 'g' :: 'i' :: 'o' :: 'n' :: '/' :: tl => regionBodyAt tl
     | _ => none).orElse fun _ =>
      (match rest with
       | 'r' :: '/' :: tl => regionBodyAt tl
       | _ => none).orElse fun _ => searchRegion rest
  | _ :: rest => searchRegion rest

/-- The region fields of the `AutoLogin` object (lines 452-453). -/
structure RegionState where
  detected_region : Option String
  region_base_url : Option String
deriving Repr, DecidableEq

/-- First branch of `detect_region` (lines 494-501): a
`{region}.console.claw.cloud` host whose remainder is non-empty and not the
literal `console`. -/
def subdomainRegion (host : String) : Option String :=
  if endsWithL host.toList consoleSuffix.toList then
    let region := removeConsoleSuffix host.toList
    if !region.isEmpty && !(region == "console".toList) then some (String.mk region)
    else none
  else none

/-- Second branch of `detect_region` (lines 504-514): on a claw.cloud
host, extract a region code embedded in the path. -/
def pathRegion (host path : String) : Option String :=
  if pyIn "console.run.claw.cloud" host || pyIn "claw.cloud" host then
    (searchRegion path.toList).map String.mk
  else none

/-- The `AutoLogin.detect_region` (lines 483-523) over pre-parsed URL
components, returning the detected region and the updated region fields;
the fallback branch records `scheme://netloc` as the base URL and keeps
the previously detected region. -/
def detect_region_parsed (st : RegionState) (p : ParsedUrl) :
    Option String × RegionState :=
  match subdomainRegion p.netloc with
  | some r => (some r, ⟨some r, some ("https://" ++ p.netloc)⟩)
  | none =>
    match pathRegion p.netloc p.path with
    | some r => (some r, ⟨some r, some ("https://" ++ r ++ ".console.claw.cloud")⟩)
    | none => (none, ⟨st.detected_region, some (p.scheme ++ "://" ++ p.netloc)⟩)

/-- The `AutoLogin.detect_region` on a URL string. -/
def detect_region (st : RegionState) (url : String) : Option String × RegionState :=
  detect_region_parsed st (urlparse url)

/-- The `AutoLogin.get_base_url` (lines 525-529): the recorded region base URL
when truthy, else the fixed entry URL. -/
def get_base_url (st : RegionState) : String :=
  match st.region_base_url with
  | some b => if pyTruthyStr b then b else LOGIN_ENTRY_URL
  | none => LOGIN_ENTRY_URL

/-- The `pages_to_visit` list of `AutoLogin.keepalive` (lines 870-873):
both navigation targets are built from `get_base_url`. -/
def keepalive_targets (st : RegionState) : List String :=
  [get_base_url st ++ "/", get_base_url st ++ "/apps"]

/-- One iteration of the keepalive visit loop (lines 879-892): a failed
navigation leaves the state unchanged; after a successful one the region is
re-detected when the landed URL is on claw.cloud. -/
def keepalive_step (st : RegionState) (landed : Option String) : RegionState :=
  match landed with
  | none => st
  | some u => if pyIn "claw.cloud" u then (detect_region st u).2 else st

/-- The `AutoLogin.keepalive` effect on the region state, given the landed URL
(or navigation failure) of each visited page. -/
def keepalive (st : RegionState) (landed : List (Option String)) : RegionState :=
  landed.foldl keepalive_step st

/-- An `AutoLogin` state already holding a region descriptor, as after a
first successful detection. -/
def C5setState : RegionState :=
  ⟨some "ap-southeast-1", some "https://ap-southeast-1.console.claw.cloud"⟩

/-! ## Verification waits (`wait_device`, `wait_two_factor_mobile`),
lines 560-643 -/

/-- The `DEVICE_VERIFY_WAIT` (line 26). -/
def DEVICE_VERIFY_WAIT : Nat := 30

/-- The location pattern tested inside the `wait_device` polling loop
(line 579): either device-verification substring. -/
def deviceChallengeIn (url : String) : Bool :=
  pyIn "verified-device" url || pyIn "device-verification" url

/-- Result of `AutoLogin.wait_device`, distinguishing its three return
sites: approval observed at a checkpoint inside the loop, approval granted
by the final re-read after the budget ran out, and timeout. -/
inductive DeviceOutcome where
  | approvedInLoop : DeviceOutcome
  | approvedAtEnd : DeviceOutcome
  | timedOut : DeviceOutcome
deriving Repr, DecidableEq

/-- The `for i in range(DEVICE_VERIFY_WAIT)` loop of `wait_device`
(lines 574-587): the page location is checked only when `i % 5 == 0`;
`urlAt i` is the location read at second `i` (reloads are folded into the
trace). -/
def wait_device_go (urlAt : Nat → String) : Nat → Nat → Bool
  | 0, _ => false
  | fuel + 1, i =>
    if i % 5 == 0 && !deviceChallengeIn (urlAt i) then true
    else wait_device_go urlAt fuel (i + 1)

/-- The `AutoLogin.wait_device` (lines 560-594).  After the loop the final
check (line 589) tests only the `'verified-device'` substring. -/
def wait_device (urlAt : Nat → String) : DeviceOutcome :=
  if wait_device_go urlAt DEVICE_VERIFY_WAIT 0 then .approvedInLoop
  else if !(pyIn "verified-device" (urlAt DEVICE_VERIFY_WAIT)) then .approvedAtEnd
  else .timedOut

/-- The boolean the Python function returns for each outcome. -/
def DeviceOutcome.toBool : DeviceOutcome → Bool
  | .timedOut => false
  | _ => true

/-- Result of `AutoLogin.wait_two_factor_mobile`, distinguishing its three
return sites: the location left the two-factor flow (success), the
location bounced back to the login page (explicit failure), or the budget
ran out (timeout). -/
inductive TFMOutcome where
  | approved : TFMOutcome
  | brokenToLogin : TFMOutcome
  | timedOut : TFMOutcome
deriving Repr, DecidableEq

/-- The `for i in range(TWO_FACTOR_WAIT)` loop of `wait_two_factor_mobile`
(lines 610-639); `urlAt i` is the location read at second `i`. -/
def wait_tfm_go (urlAt : Nat → String) : Nat → Nat → TFMOutcome
  | 0, _ => .timedOut
  | fuel + 1, i =>
    let url := urlAt i
    if !(pyIn "github.com/sessions/two-factor/" url) then .approved
    else if pyIn "github.com/login" url then .brokenToLogin
    else wait_tfm_go urlAt fuel (i + 1)

/-- The `AutoLogin.wait_two_factor_mobile` (lines 596-643); the budget is the
(environment-overridable) `TWO_FACTOR_WAIT`. -/
def wait_two_factor_mobile (budget : Nat) (urlAt : Nat → String) : TFMOutcome :=
  wait_tfm_go urlAt budget 0

/-- The boolean the Python function returns for each outcome. -/
def TFMOutcome.toBool : TFMOutcome → Bool
  | .approved => true
  | _ => false

/-- Messages the orchestrator pushes through the relay channel that the
claims talk about: the cookie persistence reports (lines 551-558), the
device-verification wait reports (lines 581, 593) and the final status
notification of `AutoLogin.notify` (line 914). -/
inductive RelayMsg where
  | cookieAutoUpdated : RelayMsg
  | cookieCleartext : String → RelayMsg
  | deviceApproved : RelayMsg
  | deviceTimeout : RelayMsg
  | statusNotify : Bool → String → RelayMsg
deriving Repr, DecidableEq

/-- The relay sends issued after the `wait_device` loop, by return site. -/
def wait_device_tail_events : DeviceOutcome → List RelayMsg
  | .approvedInLoop => [.deviceApproved]
  | .approvedAtEnd => []
  | .timedOut => [.deviceTimeout]

/-! ## `SecretUpdater` and cookie persistence, lines 386-431 and 541-558 -/

/-- The `SecretUpdater` object: `REPO_TOKEN` and `GITHUB_REPOSITORY` from
the environment (lines 390-392). -/
structure SecretUpdater where
  token : Option String
  repo : Option String
deriving Repr, DecidableEq

/-- The `self.ok = bool(self.token and self.repo)` (line 392). -/
def SecretUpdater.ok (s : SecretUpdater) : Bool := pyTruthy s.token && pyTruthy s.repo

/-- Environment of one `SecretUpdater.update` call: the public-key fetch
fails (non-200), some network or encryption step raises, or the final PUT
returns the given status code. -/
inductive UpdateEnv where
  | keyFetchFail : UpdateEnv
  | netErr : UpdateEnv
  | putStatus : Nat → UpdateEnv
deriving Repr, DecidableEq

/-- The `SecretUpdater.update` (lines 398-431): false when disabled; false on
a failed key fetch or any exception; otherwise true exactly for the
201/204 upload statuses. -/
def SecretUpdater.update (s : SecretUpdater) (env : UpdateEnv) : Bool :=
  if !s.ok then false
  else
    match env with
    | .keyFetchFail => false
    | .netErr => false
    | .putStatus code => code == 201 || code == 204

/-- The `AutoLogin.save_cookie` (lines 541-558) as the relay messages it
issues: nothing for a falsy value; the auto-update report when the secret
update succeeded; otherwise the cookie value in cleartext. -/
def save_cookie (sec : SecretUpdater) (env : UpdateEnv) (value : String) :
    List RelayMsg :=
  if !pyTruthyStr value then []
  else if sec.update env then [.cookieAutoUpdated]
  else [.cookieCleartext value]

/-- The cookie-extraction step of `AutoLogin.run` (lines 1062-1066 and
1000-1002): `new = self.get_session(context); if new: self.save_cookie(new)`.
The configured start value `GH_SESSION` is not consulted. -/
def cookie_update_step (sec : SecretUpdater) (env : UpdateEnv)
    (extracted : Option String) : List RelayMsg :=
  match extracted with
  | none => []
  | some v => if pyTruthyStr v then save_cookie sec env v else []

/-- A device-verification location trace that stays on a
`device-verification` page (which contains the loop pattern but not the
`verified-device` substring tested by the final re-read). -/
def C1cexUrlAt : Nat → String := fun _ => "https://github.com/sessions/device-verification"

/-- A device-verification location trace that stays on a `verified-device`
page for the whole budget and beyond. -/
def C1wUrlAt : Nat → String := fun _ => "https://github.com/sessions/verified-device"

/-! ## The orchestrator `AutoLogin.run`, lines 923-1089 -/

/-- The environment of one run: configuration, the locations the browser
reports at each step, and the outcomes of the external calls.  `urlAt`
traces are indexed by polling second. -/
structure RunEnv where
  username : Option String
  password : Option String
  gh_session : String
  tg : TG
  sec : SecretUpdater
  secEnv : UpdateEnv
  urlAfterEntry : String
  clickGithubOk : Bool
  urlAfterClick : String
  fillOk : Bool
  urlAfterSubmit : String
  deviceUrlAt : Nat → String
  urlAfterDeviceWait : String
  tfBudget : Nat
  tfmUrlAt : Nat → String
  codeFlowOk : Bool
  flashError : Option String
  redirectUrlAt : Nat → String
  urlAtVerify : String
  keepaliveLanded : List (Option String)
  extractedCookie : Option String

/-- The `.flash-error` check at lines 818-824: a visible error banner
fails the login. -/
def flash_ok (s : RunEnv) : Bool := s.flashError.isNone

/-- The `AutoLogin.login_github` (lines 755-826): fill credentials, then
branch on the resulting location into device verification, mobile
two-factor, or code-entry two-factor, and finally check for an error
banner. -/
def login_github (s : RunEnv) : Bool :=
  if !s.fillOk then false
  else
    let url := s.urlAfterSubmit
    let deviceTaken := pyIn "verified-device" url || pyIn "device-verification" url
    if deviceTaken && !(wait_device s.deviceUrlAt).toBool then false
    else
      let url2 := if deviceTaken then s.urlAfterDeviceWait else url
      if pyIn "two-factor" url2 then
        if pyIn "two-factor/mobile" url2 then
          if (wait_two_factor_mobile s.tfBudget s.tfmUrlAt).toBool then flash_ok s
          else false
        else if s.codeFlowOk then flash_ok s
        else false
      else flash_ok s

/-- The `for i in range(wait)` loop of `AutoLogin.wait_redirect`
(lines 837-860): succeed as soon as the location is on claw.cloud outside
a signin path, detecting the region from it; OAuth re-authorization clicks
do not change the tracked state. -/
def wait_redirect_go (urlAt : Nat → String) (st : RegionState) :
    Nat → Nat → Bool × RegionState
  | 0, _ => (false, st)
  | fuel + 1, i =>
    let url := urlAt i
    if pyIn "claw.cloud" url && !(pyIn "signin" (pyLower url)) then
      (true, (detect_region st url).2)
    else wait_redirect_go urlAt st fuel (i + 1)

/-- The `AutoLogin.wait_redirect` with its default 60-second budget. -/
def wait_redirect (urlAt : Nat → String) (st : RegionState) : Bool × RegionState :=
  wait_redirect_go urlAt st 60 0

/-- The status notification of `AutoLogin.notify` (lines 896-921), which
returns without sending when the relay channel is unconfigured. -/
def notify_events (tg : TG) (ok : Bool) (err : String) : List RelayMsg :=
  if tg.ok then [.statusNotify ok err] else []

/-- Result of a run: the process exit code, the relay messages the claims
track, and the final region state. -/
structure RunResult where
  exitCode : Nat
  events : List RelayMsg
  state : RegionState
deriving Repr, DecidableEq

/-- The `AutoLogin.run` (lines 923-1089): missing credentials abort; an
already-authenticated entry location short-circuits to keepalive and
cookie extraction; otherwise click the provider, authenticate (with the
verification waits), wait for the redirect (detecting the region), verify
the landing location, re-detect the region if still unset, run keepalive,
extract and save the cookie, and notify the final status exactly once on
every path. -/
def run (s : RunEnv) : RunResult :=
  if !(pyTruthy s.username) || !(pyTruthy s.password) then
    ⟨1, notify_events s.tg false "凭据未配置", ⟨none, none⟩⟩
  else
    let st0 : RegionState := ⟨none, none⟩
    if !(pyIn "signin" (pyLower s.urlAfterEntry)) && pyIn "claw.cloud" s.urlAfterEntry then
      let st1 := (detect_region st0 s.urlAfterEntry).2
      let st2 := keepalive st1 s.keepaliveLanded
      ⟨0, cookie_update_step s.sec s.secEnv s.extractedCookie ++
          notify_events s.tg true "", st2⟩
    else if !s.clickGithubOk then
      ⟨1, notify_events s.tg false "找不到 GitHub 按钮", st0⟩
    else
      let url := s.urlAfterClick
      let ghLogin := pyIn "github.com/login" url || pyIn "github.com/session" url
      if ghLogin && !login_github s then
        ⟨1, notify_events s.tg false "GitHub 登录失败", st0⟩
      else
        let r := wait_redirect s.redirectUrlAt st0
        if !r.1 then ⟨1, notify_events s.tg false "重定向失败", r.2⟩
        else
          let cu := s.urlAtVerify
          if !(pyIn "claw.cloud" cu) || pyIn "signin" (pyLower cu) then
            ⟨1, notify_events s.tg false "验证失败", r.2⟩
          else
            let st2 := if !(pyTruthy r.2.detected_region) then (detect_region r.2 cu).2
                       else r.2
            let st3 := keepalive st2 s.keepaliveLanded
            ⟨0, cookie_update_step s.sec s.secEnv s.extractedCookie ++
                notify_events s.tg true "", st3⟩

/-- A run whose entry navigation lands already authenticated and whose
extracted session cookie equals the `GH_SESSION` value supplied at start;
the secret updater is unconfigured. -/
def C2scn : RunEnv where
  username := some "user"
  password := some "pw"
  gh_session := "s3ss10nvalue"
  tg := ⟨some "t", some "777"⟩
  sec := ⟨none, none⟩
  secEnv := UpdateEnv.netErr
  urlAfterEntry := "https://ap-southeast-1.console.claw.cloud/"
  clickGithubOk := true
  urlAfterClick := ""
  fillOk := true
  urlAfterSubmit := ""
  deviceUrlAt := fun _ => ""
  urlAfterDeviceWait := ""
  tfBudget := 0
  tfmUrlAt := fun _ => ""
  codeFlowOk := true
  flashError := none
  redirectUrlAt := fun _ => ""
  urlAtVerify := ""
  keepaliveLanded := [none, none]
  extractedCookie := some "s3ss10nvalue"

/-- A run that reaches the mobile two-factor push and never sees the
location leave the push pattern within the (overridden, 2-second)
budget. -/
def C6scn : RunEnv where
  username := some "user"
  password := some "pw"
  gh_session := ""
  tg := ⟨some "t", some "777"⟩
  sec := ⟨none, none⟩
  secEnv := UpdateEnv.netErr
  urlAfterEntry := "https://us-west-1.run.claw.cloud/signin"
  clickGithubOk := true
  urlAfterClick := "https://github.com/login"
  fillOk := true
  urlAfterSubmit := "https://github.com/sessions/two-factor/mobile"
  deviceUrlAt := fun _ => ""
  urlAfterDeviceWait := ""
  tfBudget := 2
  tfmUrlAt := fun _ => "https://github.com/sessions/two-factor/mobile"
  codeFlowOk := true
  flashError := none
  redirectUrlAt := fun _ => ""
  urlAtVerify := ""
  keepaliveLanded := []
  extractedCookie := none

/-! ## `Hysteria2Proxy.parse_url`, lines 34-121 -/

/-- Local SOCKS5 proxy port (line 30). -/
def LOCAL_PROXY_PORT : Nat := 51080

/-- Local HTTP proxy port (line 31). -/
def LOCAL_HTTP_PORT : Nat := 51081

/-- Value of a hexadecimal digit, for percent-decoding. -/
def hexVal (c : Char) : Option Nat :=
  let n := c.toNat
  if 48 ≤ n && n ≤ 57 then some (n - 48)
  else if 97 ≤ n && n ≤ 102 then some (n - 87)
  else if 65 ≤ n && n ≤ 70 then some (n - 55)
  else none

/-- The `urllib.parse.unquote`: decode `%XX` escapes, leaving invalid escapes
untouched (single-byte escapes, which covers the ASCII connection strings
the script is given). -/
def pyUnquoteL : List Char → List Char
  | [] => []
  | '%' :: h1 :: h2 :: rest =>
    match hexVal h1, hexVal h2 with
    | some a, some b => Char.ofNat (16 * a + b) :: pyUnquoteL rest
    | _, _ => '%' :: pyUnquoteL (h1 :: h2 :: rest)
  | c :: rest => c :: pyUnquoteL rest

/-- The `unquote_plus` as `parse_qs` applies it to names and values: `+`
becomes a space, then percent-decoding. -/
def pyUnquotePlusL (l : List Char) : List Char :=
  pyUnquoteL (l.map (fun c => if c = '+' then ' ' else c))

/-- Python `str.split(sep)` (full split, keeping empty pieces). -/
def splitAllL (sep : Char) : List Char → List (List Char)
  | [] => [[]]
  | c :: t =>
    if c = sep then [] :: splitAllL sep t
    else
      match splitAllL sep t with
      | [] => [[c]]
      | h :: r => (c :: h) :: r

/-- One `name=value` piece of a query string, as `parse_qs` treats it:
empty pieces, pieces without `=` and pieces with an empty value are
dropped; names and values are unquoted. -/
def parse_qsl_item (kv : List Char) : Option (List Char × List Char) :=
  if kv.isEmpty then none
  else
    match splitFirstL '=' kv with
    | none => none
    | some nv =>
      if nv.2.isEmpty then none
      else some (pyUnquotePlusL nv.1, pyUnquotePlusL nv.2)

/-- The `urllib.parse.parse_qs` as an ordered association list (the script
only reads the first value of each key). -/
def parse_qsl (query : List Char) : List (List Char × List Char) :=
  (splitAllL '&' query).filterMap parse_qsl_item

/-- The `params.get(key, default)[0]`: the first value recorded for `key`. -/
def qsLookup (key : String) (ps : List (List Char × List Char)) :
    Option (List Char) :=
  (ps.find? (fun p => p.1 == key.toList)).map (fun p => p.2)

/-- The `int()` on the plain decimal strings a port position holds; on any
other input `int` raises `ValueError`, which the `except` of `parse_url`
turns into `None`. -/
def pyIntNat (s : List Char) : Option Nat :=
  if !s.isEmpty && s.all pyIsDigit then
    some (s.foldl (fun n c => 10 * n + (c.toNat - 48)) 0)
  else none

/-- The `tls` sub-dictionary of the generated Hysteria2 config. -/
structure Hy2Tls where
  sni : String
  insecure : Bool
  alpn : Option (List String)
deriving Repr, DecidableEq

/-- The config dictionary built by `parse_url` (lines 91-110). -/
structure Hy2Config where
  server : String
  auth : String
  tls : Hy2Tls
  socks5Listen : String
  httpListen : String
deriving Repr, DecidableEq

/-- The `Hysteria2Proxy.parse_url` (lines 49-121): strip the scheme prefix,
drop the fragment after the last `#`, split the query at the first `?`,
split `password@host:port` at the last `@` (unquoting the password) and
the last `:` (port 443 when absent), and assemble the config with SNI
defaulting to the host, `insecure` true exactly for value `1`, and ALPN
present only when the query provides it. -/
def parse_url (hy2_url : String) : Option Hy2Config :=
  if !pyTruthyStr hy2_url then none
  else
    let cs0 := hy2_url.toList
    let cs1 := if "hysteria2://".toList.isPrefixOf cs0 then cs0.drop 12
               else if "hy2://".toList.isPrefixOf cs0 then cs0.drop 6
               else cs0
    let cs2 := match splitLastL '#' cs1 with
               | some pr => pr.1
               | none => cs1
    let qs : List Char × List (List Char × List Char) :=
      match splitFirstL '?' cs2 with
      | some pr => (pr.1, parse_qsl pr.2)
      | none => (cs2, [])
    let au : List Char × List Char :=
      match splitLastL '@' qs.1 with
      | some pr => (pyUnquoteL pr.1, pr.2)
      | none => ([], qs.1)
    let hp : Option (List Char × Nat) :=
      match splitLastL ':' au.2 with
      | some pr => (pyIntNat pr.2).map (fun p => (pr.1, p))
      | none => some (au.2, 443)
    match hp with
    | none => none
    | some hostport =>
      let params := qs.2
      let host := hostport.1
      let sni := (qsLookup "sni" params).getD host
      let insecure := ((qsLookup "insecure" params).getD "0".toList) == "1".toList
      let alpn := (qsLookup "alpn" params).map
        (fun a => (splitAllL ',' a).map String.mk)
      some { server := String.mk host ++ ":" ++ toString hostport.2
             auth := String.mk au.1
             tls := ⟨String.mk sni, insecure, alpn⟩
             socks5Listen := "127.0.0.1:" ++ toString LOCAL_PROXY_PORT
             httpListen := "127.0.0.1:" ++ toString LOCAL_HTTP_PORT }

/-- Rendering of query pairs as `k1=v1&k2=v2&...`, the shape named by the
connection-string format. -/
def renderQS : List (List Char × List Char) → List Char
  | [] => []
  | [(k, v)] => k ++ '=' :: v
  | (k, v) :: rest => k ++ '=' :: (v ++ '&' :: renderQS rest)

/-- Side conditions on a rendered query pair under which query encoding
is the identity and the pair survives `parse_qs`: no separator or escape
characters in the name, none in the value, and a non-empty value. -/
def QPairOk (p : List Char × List Char) : Prop :=
  '&' ∉ p.1 ∧ '=' ∉ p.1 ∧ '%' ∉ p.1 ∧ '+' ∉ p.1 ∧
  '&' ∉ p.2 ∧ '%' ∉ p.2 ∧ '+' ∉ p.2 ∧ p.2 ≠ []

instance (p : List Char × List Char) : Decidable (QPairOk p) := by
  unfold QPairOk
  infer_instance

end ClawAutoLogin

namespace ClawAutoLogin

/-! ## Theorems: relay channel -/

/-- Every update surviving the filter of a poll is at least the polled
offset. -/
theorem mem_getUpdatesSince {l : List Update} {off : Nat} {v : Update}
    (h : v ∈ getUpdatesSince l off) : off ≤ v.updateId := by
  have := List.mem_filter.mp h
  exact of_decide_eq_true this.2

/-- The `processUpdates` never moves the offset below a lower bound satisfied
by the input, and any match it returns respects that bound. -/
theorem processUpdates_bound (chat : String) (low : Nat) :
    ∀ (upds : List Update) (off : Nat),
      (∀ v ∈ upds, low ≤ v.updateId) → low ≤ off →
      low ≤ (processUpdates chat off upds).1 ∧
      (∀ u c, (processUpdates chat off upds).2 = some (u, c) → low ≤ u.updateId) := by
  intro upds
  induction upds with
  | nil =>
    intro off _ hoff
    refine ⟨hoff, ?_⟩
    intro u c h
    simp [processUpdates] at h
  | cons v rest ih =>
    intro off hmem _hoff
    have hv : low ≤ v.updateId := hmem v (List.mem_cons_self v rest)
    have hrest : ∀ w ∈ rest, low ≤ w.updateId := fun w hw =>
      hmem w (List.mem_cons_of_mem v hw)
    have hnext : low ≤ v.updateId + 1 := Nat.le_succ_of_le hv
    by_cases hchat : v.chatId = chat
    · simp only [processUpdates, hchat, ne_eq, not_true_eq_false, if_false]
      cases hm : matchCode (pyStrip v.text) with
      | some c =>
        refine ⟨hnext, ?_⟩
        intro u c' h
        simp only [Option.some.injEq, Prod.mk.injEq] at h
        rw [← h.1]
        exact hv
      | none =>
        exact ih (v.updateId + 1) hrest hnext
    · simp only [processUpdates, ne_eq, hchat, not_false_eq_true, if_true]
      exact ih (v.updateId + 1) hrest hnext

/-- A match returned by `processUpdates` always comes from the configured
chat: updates from any other sender are skipped. -/
theorem processUpdates_chat (chat : String) :
    ∀ (upds : List Update) (off off2 : Nat) (u : Update) (c : String),
      processUpdates chat off upds = (off2, some (u, c)) → u.chatId = chat := by
  intro upds
  induction upds with
  | nil =>
    intro off off2 u c h
    simp [processUpdates] at h
  | cons v rest ih =>
    intro off off2 u c h
    by_cases hchat : v.chatId = chat
    · simp only [processUpdates, hchat, ne_eq, not_true_eq_false, if_false] at h
      cases hm : matchCode (pyStrip v.text) with
      | some c' =>
        rw [hm] at h
        simp only [Prod.mk.injEq, Option.some.injEq] at h
        rw [← h.2.1]
        exact hchat
      | none =>
        rw [hm] at h
        exact ih (v.updateId + 1) off2 u c h
    · simp only [processUpdates, ne_eq, hchat, not_false_eq_true, if_true] at h
      exact ih (v.updateId + 1) off2 u c h

/-- The polling loop only returns matches whose update id is at least the
offset it started from. -/
theorem wait_code_go_ge (chat : String) (low : Nat) :
    ∀ (polls : List Poll) (off : Nat) (u : Update) (c : String),
      low ≤ off → wait_code_go chat off polls = some (u, c) → low ≤ u.updateId := by
  intro polls
  induction polls with
  | nil =>
    intro off u c _ h
    simp [wait_code_go] at h
  | cons p rest ih =>
    intro off u c hoff h
    cases p with
    | err => exact ih off u c hoff h
    | notOk => exact ih off u c hoff h
    | stream l =>
      have hmem : ∀ v ∈ getUpdatesSince l off, low ≤ v.updateId := fun v hv =>
        Nat.le_trans hoff (mem_getUpdatesSince hv)
      have hb := processUpdates_bound chat low (getUpdatesSince l off) off hmem hoff
      simp only [wait_code_go] at h
      rcases hpe : processUpdates chat off (getUpdatesSince l off) with ⟨off2, r⟩
      rw [hpe] at h
      cases r with
      | none => exact ih off2 u c (by rw [hpe] at hb; exact hb.1) h
      | some m =>
        simp only [Option.some.injEq] at h
        rw [hpe] at hb
        exact hb.2 u c (by rw [h])

/-- C3: for every inbound message stream, `flush_updates` followed by the
`wait_code` polling (which resumes from the flushed offset) never returns a
code extracted from a message whose offset precedes the offset returned by
the flush — including when the flush call itself encounters a transport
error, in which case the flush returns offset 0, which no update id
precedes. -/
theorem C3_no_stale_code (tg : TG) (fr : FlushResp) (polls : List Poll)
    (u : Update) (c : String)
    (h : wait_code_aux tg fr polls = some (u, c)) :
    flush_updates tg fr ≤ u.updateId ∧ wait_code tg fr polls = some c := by
  constructor
  · by_cases hok : tg.ok
    · simp only [wait_code_aux, hok, Bool.not_true, if_neg] at h
      simp only [Bool.false_eq_true, if_false] at h
      exact wait_code_go_ge tg.chatIdStr (flush_updates tg fr) polls
        (flush_updates tg fr) u c (Nat.le_refl _) h
    · simp [wait_code_aux, Bool.eq_false_iff.mpr hok] at h
  · simp [wait_code, h]

/-- C8: the `wait_code` matcher accepts `/code 123456` and
`/code 12345678` (returning the digits), rejects `/code 1234` and
`code 123456`, and the update-processing loop never returns a code from a
sender other than the configured chat id. -/
theorem C8_code_matcher :
    matchCode "/code 123456" = some "123456" ∧
    matchCode "/code 12345678" = some "12345678" ∧
    matchCode "/code 1234" = none ∧
    matchCode "code 123456" = none ∧
    (∀ (upds : List Update) (chat : String) (off off2 : Nat) (u : Update) (c : String),
      processUpdates chat off upds = (off2, some (u, c)) → u.chatId = chat) := by
  refine ⟨by decide, by decide, by decide, by decide, ?_⟩
  intro upds chat off off2 u c h
  exact processUpdates_chat chat upds off off2 u c h

/-- Witness for C8: the sender-scoping clause applied to a concrete inbound
update coming from the configured chat. -/
theorem C8_code_matcher_witness :
    ({ updateId := 5, chatId := "777", text := "/code 123456" } : Update).chatId
      = "777" :=
  C8_code_matcher.2.2.2.2 [{ updateId := 5, chatId := "777", text := "/code 123456" }]
    "777" 0 6 _ "123456" (by decide)

/-- Witness for C3: a concrete flush over a stale stream yields offset 10,
and the code matched afterwards comes from update id 10. -/
theorem C3_no_stale_code_witness :
    flush_updates { token := some "t", chatId := some "777" }
        (FlushResp.stream [{ updateId := 9, chatId := "777", text := "/code 111111" }])
      ≤ ({ updateId := 10, chatId := "777", text := "/code 654321" } : Update).updateId ∧
    wait_code { token := some "t", chatId := some "777" }
        (FlushResp.stream [{ updateId := 9, chatId := "777", text := "/code 111111" }])
        [Poll.stream [{ updateId := 10, chatId := "777", text := "/code 654321" }]]
      = some "654321" :=
  C3_no_stale_code { token := some "t", chatId := some "777" }
    (FlushResp.stream [{ updateId := 9, chatId := "777", text := "/code 111111" }])
    [Poll.stream [{ updateId := 10, chatId := "777", text := "/code 654321" }]]
    { updateId := 10, chatId := "777", text := "/code 654321" } "654321" (by decide)

/-- C10: with the relay channel not fully configured (`ok` false because
the bot token or chat id is absent), `wait_code` returns `None` immediately
for every poll schedule, `flush_updates` returns offset 0, and the send
operations make no transport attempt at all. -/
theorem C10_unconfigured_noop (tg : TG) (h : tg.ok = false) :
    (∀ fr polls, wait_code tg fr polls = none) ∧
    (∀ fr polls, wait_code_aux tg fr polls = none) ∧
    (∀ fr, flush_updates tg fr = 0) ∧
    (∀ pf, Telegram_send tg pf = []) ∧
    (∀ pe pf, Telegram_photo tg pe pf = []) := by
  refine ⟨?_, ?_, ?_, ?_, ?_⟩ <;>
    intros <;>
    simp [wait_code, wait_code_aux, flush_updates, Telegram_send, Telegram_photo, h]

/-- Witness for C10: a concrete channel missing its bot token is inert. -/
theorem C10_unconfigured_noop_witness :
    wait_code { token := none, chatId := some "777" } FlushResp.err [Poll.err] = none ∧
    flush_updates { token := none, chatId := some "777" } FlushResp.err = 0 ∧
    Telegram_send { token := none, chatId := some "777" } true = [] ∧
    Telegram_photo { token := none, chatId := some "777" } true false = [] :=
  have h := C10_unconfigured_noop { token := none, chatId := some "777" } (by decide)
  ⟨h.1 FlushResp.err [Poll.err], h.2.2.1 FlushResp.err, h.2.2.2.1 true, h.2.2.2.2 true false⟩

/-! ## Theorems: region resolver -/

/-- The characters of a packed character list. -/
theorem toList_mk (l : List Char) : (String.mk l).toList = l := rfl

/-- The `removeSubAux` on the empty list. -/
theorem removeSubAux_nil (pat : List Char) (f : Nat) : removeSubAux pat f [] = [] := by
  cases f <;> rfl

/-- Removing the console suffix from `region ++ suffix` yields `region`
when `region` contains no dot (so no earlier occurrence can start inside
it). -/
theorem removeSubAux_append (region : List Char) (hdot : '.' ∉ region) :
    ∀ fuel, region.length + 1 ≤ fuel →
      removeSubAux consoleSuffix.toList fuel (region ++ consoleSuffix.toList) = region := by
  induction region with
  | nil =>
    intro fuel hf
    obtain ⟨f, rfl⟩ : ∃ f, fuel = f + 1 := ⟨fuel - 1, by omega⟩
    simp only [List.nil_append]
    show removeSubAux consoleSuffix.toList (f + 1)
      ('.' :: "console.claw.cloud".toList) = []
    simp only [removeSubAux]
    rw [if_pos]
    · rw [show (('.' :: "console.claw.cloud".toList).drop consoleSuffix.toList.length) = []
        from rfl]
      exact removeSubAux_nil _ _
    · decide
  | cons c r ih =>
    intro fuel hf
    obtain ⟨f, rfl⟩ : ∃ f, fuel = f + 1 := ⟨fuel - 1, by omega⟩
    have hc : c ≠ '.' := fun hc => hdot (hc ▸ List.mem_cons_self c r)
    have hr : '.' ∉ r := fun hr => hdot (List.mem_cons_of_mem c hr)
    simp only [List.cons_append, removeSubAux, List.append_eq]
    rw [if_neg]
    · rw [ih hr f (by simpa using Nat.succ_le_succ_iff.mp hf)]
    · intro hpre
      have : ('.' :: "console.claw.cloud".toList).isPrefixOf
          (c :: (r ++ consoleSuffix.toList)) = true := hpre
      simp only [List.isPrefixOf, Bool.and_eq_true, beq_iff_eq] at this
      exact hc this.1.symm

/-- The `removeConsoleSuffix` strips exactly the final suffix from a dotless
region label. -/
theorem removeConsoleSuffix_append (region : List Char) (hdot : '.' ∉ region) :
    removeConsoleSuffix (region ++ consoleSuffix.toList) = region := by
  unfold removeConsoleSuffix
  apply removeSubAux_append region hdot
  simp only [List.length_append]
  have : 1 ≤ consoleSuffix.toList.length := by decide
  omega

/-- Every list ends with its own suffix. -/
theorem endsWithL_append (a pat : List Char) : endsWithL (a ++ pat) pat = true := by
  simp [endsWithL, List.reverse_append, List.isPrefixOf_iff_prefix, List.prefix_append]

/-- C4: region detection (i) maps any host made of a dotless non-`console`
label followed by the fixed console suffix to that label with base
endpoint `https://host`; (ii) maps the primary-domain URL with a
`/region/ap-southeast-1` path segment to that region with the synthesized
subdomain base endpoint; (iii) on any parsed URL matching neither branch,
returns no identifier and records `scheme://netloc` as the base endpoint,
keeping the previously detected region. -/
theorem C4_region_detection :
    (∀ (st : RegionState) (scheme path : String) (region : List Char),
      region ≠ [] → region ≠ "console".toList → '.' ∉ region →
      detect_region_parsed st
          ⟨scheme, String.mk (region ++ consoleSuffix.toList), path⟩ =
        (some (String.mk region),
         ⟨some (String.mk region),
          some ("https://" ++ String.mk (region ++ consoleSuffix.toList))⟩)) ∧
    (∀ st : RegionState,
      detect_region st "https://console.run.claw.cloud/region/ap-southeast-1/x" =
        (some "ap-southeast-1",
         ⟨some "ap-southeast-1", some "https://ap-southeast-1.console.claw.cloud"⟩)) ∧
    (∀ (st : RegionState) (p : ParsedUrl),
      subdomainRegion p.netloc = none → pathRegion p.netloc p.path = none →
      detect_region_parsed st p =
        (none, ⟨st.detected_region, some (p.scheme ++ "://" ++ p.netloc)⟩)) := by
  refine ⟨?_, ?_, ?_⟩
  · intro st scheme path region hne hcons hdot
    have hsub : subdomainRegion (String.mk (region ++ consoleSuffix.toList)) =
        some (String.mk region) := by
      unfold subdomainRegion
      rw [toList_mk, endsWithL_append, removeConsoleSuffix_append region hdot]
      simp only [if_true]
      rw [if_pos]
      simp only [Bool.and_eq_true, Bool.not_eq_true']
      constructor
      · simpa [List.isEmpty_iff] using hne
      · simpa using hcons
    simp only [detect_region_parsed]
    rw [hsub]
  · intro st
    rfl
  · intro st p h1 h2
    simp [detect_region_parsed, h1, h2]

/-- Witness for C4: the three branches at the spec's example URLs. -/
theorem C4_region_detection_witness :
    detect_region_parsed ⟨none, none⟩
        ⟨"https", String.mk ("ap-southeast-1".toList ++ consoleSuffix.toList), "/apps"⟩ =
      (some "ap-southeast-1",
       ⟨some "ap-southeast-1",
        some ("https://" ++ String.mk ("ap-southeast-1".toList ++ consoleSuffix.toList))⟩) ∧
    detect_region ⟨none, none⟩ "https://console.run.claw.cloud/region/ap-southeast-1/x" =
      (some "ap-southeast-1",
       ⟨some "ap-southeast-1", some "https://ap-southeast-1.console.claw.cloud"⟩) ∧
    detect_region_parsed ⟨none, none⟩ (urlparse "https://console.run.claw.cloud/apps") =
      (none, ⟨none, some "https://console.run.claw.cloud"⟩) :=
  ⟨C4_region_detection.1 ⟨none, none⟩ "https" "/apps" "ap-southeast-1".toList
      (by decide) (by decide) (by decide),
   C4_region_detection.2.1 ⟨none, none⟩,
   C4_region_detection.2.2 ⟨none, none⟩ (urlparse "https://console.run.claw.cloud/apps")
      (by decide) (by decide)⟩

/-- C5 as stated is false: with the region descriptor already set to
`ap-southeast-1`, a later `detect_region` call on a URL of a different
regional subdomain replaces the descriptor with a different value. -/
theorem C5_claim_counterexample :
    C5setState.detected_region = some "ap-southeast-1" ∧
    (detect_region C5setState "https://eu-central-1.console.claw.cloud/apps").2 =
      ⟨some "eu-central-1", some "https://eu-central-1.console.claw.cloud"⟩ ∧
    (some "eu-central-1" : Option String) ≠ some "ap-southeast-1" := by
  refine ⟨rfl, ?_, by decide⟩
  decide

/-- C5 amended: once the region base URL is set (to a non-empty value, the
only kind the code stores), `get_base_url` returns it and both keepalive
navigation targets are built from it; however, detection is
last-detection-wins rather than first-detected-wins: whenever a later
`detect_region` call finds a region, it overwrites `detected_region` with
that value regardless of the previously stored descriptor. -/
theorem C5_amended_last_detection_wins (st : RegionState) (b : String)
    (hb : st.region_base_url = some b) (hne : pyTruthyStr b = true) :
    get_base_url st = b ∧
    keepalive_targets st = [b ++ "/", b ++ "/apps"] ∧
    (∀ (st2 : RegionState) (p : ParsedUrl) (r : String),
      (detect_region_parsed st2 p).1 = some r →
      (detect_region_parsed st2 p).2.detected_region = some r) := by
  have hbase : get_base_url st = b := by simp [get_base_url, hb, hne]
  refine ⟨hbase, by simp [keepalive_targets, hbase], ?_⟩
  intro st2 p r h
  unfold detect_region_parsed at h ⊢
  cases hs : subdomainRegion p.netloc with
  | some r' => simp_all
  | none =>
    cases hp : pathRegion p.netloc p.path with
    | some r' => simp_all
    | none => simp_all

/-- Witness for C5: the already-set state routes keepalive through its base
endpoint, while a later detection on a different regional URL overwrites
the stored identifier. -/
theorem C5_amended_last_detection_wins_witness :
    get_base_url C5setState = "https://ap-southeast-1.console.claw.cloud" ∧
    keepalive_targets C5setState =
      ["https://ap-southeast-1.console.claw.cloud/",
       "https://ap-southeast-1.console.claw.cloud/apps"] ∧
    (detect_region_parsed C5setState
        (urlparse "https://eu-central-1.console.claw.cloud/apps")).2.detected_region =
      some "eu-central-1" :=
  have h := C5_amended_last_detection_wins C5setState
    "https://ap-southeast-1.console.claw.cloud" rfl (by decide)
  ⟨h.1, h.2.1, h.2.2 C5setState
    (urlparse "https://eu-central-1.console.claw.cloud/apps") "eu-central-1" (by decide)⟩

/-! ## Theorems: verification waits and cookie persistence -/

/-- When every checkpoint of the device-wait loop still sees the
device-verification pattern, the loop never approves. -/
theorem wait_device_go_false (urlAt : Nat → String) :
    ∀ (fuel i : Nat),
      (∀ j, i ≤ j → j < i + fuel → j % 5 = 0 → deviceChallengeIn (urlAt j) = true) →
      wait_device_go urlAt fuel i = false := by
  intro fuel
  induction fuel with
  | zero => intro i _; rfl
  | succ f ih =>
    intro i h
    have hcase : (i % 5 == 0 && !deviceChallengeIn (urlAt i)) = false := by
      cases hb : (i % 5 == 0) with
      | false => simp
      | true =>
        have := h i (Nat.le_refl i) (by omega) (by simpa using hb)
        simp [this]
    simp only [wait_device_go, hcase, Bool.false_eq_true, if_false]
    exact ih (i + 1) (fun j hj1 hj2 hj3 => h j (by omega) (by omega) hj3)

/-- C1 as stated is false: with the location pinned to a
`device-verification` page, every in-loop checkpoint still matches the
device-verification pattern, the final re-read still matches it, and yet
the run is treated as approved (the final check only tests the
`verified-device` substring). -/
theorem C1_claim_counterexample :
    wait_device C1cexUrlAt = DeviceOutcome.approvedAtEnd ∧
    (wait_device C1cexUrlAt).toBool = true ∧
    deviceChallengeIn (C1cexUrlAt DEVICE_VERIFY_WAIT) = true := by
  refine ⟨by decide, by decide, by decide⟩

/-- C1 amended: when the polling budget is exhausted with the location
still matching the device-verification pattern at every checkpoint, the
run is treated as approved if and only if a final re-read of the location
does not contain the `verified-device` substring — a strictly weaker test
than the loop's pattern, which also covers `device-verification`;
otherwise the outcome is a timeout, reported to the relay channel. -/
theorem C1_amended_final_check (urlAt : Nat → String)
    (h : ∀ j, j < DEVICE_VERIFY_WAIT → j % 5 = 0 → deviceChallengeIn (urlAt j) = true) :
    ((wait_device urlAt).toBool = true ↔
      pyIn "verified-device" (urlAt DEVICE_VERIFY_WAIT) = false) ∧
    (pyIn "verified-device" (urlAt DEVICE_VERIFY_WAIT) = true →
      wait_device urlAt = DeviceOutcome.timedOut ∧
      wait_device_tail_events (wait_device urlAt) = [RelayMsg.deviceTimeout]) := by
  have hloop : wait_device_go urlAt DEVICE_VERIFY_WAIT 0 = false :=
    wait_device_go_false urlAt DEVICE_VERIFY_WAIT 0
      (fun j _ hj2 hj3 => h j (by omega) hj3)
  unfold wait_device
  rw [hloop]
  cases hv : pyIn "verified-device" (urlAt DEVICE_VERIFY_WAIT) <;>
    simp [DeviceOutcome.toBool, wait_device_tail_events]

/-- Witness for C1 amended: a trace pinned to a `verified-device` page
satisfies the budget-exhaustion hypothesis and times out. -/
theorem C1_amended_final_check_witness :
    ((wait_device C1wUrlAt).toBool = true ↔
      pyIn "verified-device" (C1wUrlAt DEVICE_VERIFY_WAIT) = false) ∧
    (pyIn "verified-device" (C1wUrlAt DEVICE_VERIFY_WAIT) = true →
      wait_device C1wUrlAt = DeviceOutcome.timedOut ∧
      wait_device_tail_events (wait_device C1wUrlAt) = [RelayMsg.deviceTimeout]) :=
  C1_amended_final_check C1wUrlAt (by decide)

/-- C7: for a truthy new credential, a failing store update makes
`save_cookie` send exactly the cleartext disclosure (once, with no success
report), while a successful update sends exactly the success report and
never a cleartext disclosure. -/
theorem C7_cleartext_fallback (sec : SecretUpdater) (env : UpdateEnv) (v : String)
    (hv : pyTruthyStr v = true) :
    (sec.update env = false →
      save_cookie sec env v = [RelayMsg.cookieCleartext v]) ∧
    (sec.update env = true →
      save_cookie sec env v = [RelayMsg.cookieAutoUpdated] ∧
      ∀ w, RelayMsg.cookieCleartext w ∉ save_cookie sec env v) := by
  constructor <;> intro h <;> simp [save_cookie, hv, h]

/-- Witness for C7: an unconfigured updater reports failure, so the
concrete new cookie is disclosed in cleartext exactly once. -/
theorem C7_cleartext_fallback_witness :
    save_cookie ⟨none, none⟩ UpdateEnv.netErr "newcookievalue" =
      [RelayMsg.cookieCleartext "newcookievalue"] :=
  (C7_cleartext_fallback ⟨none, none⟩ UpdateEnv.netErr "newcookievalue"
    (by decide)).1 (by decide)

/-- C2 as stated is false: in a full run whose extracted session cookie is
identical to the `GH_SESSION` value supplied at start, the credential is
still handed to `save_cookie` and relayed (here in cleartext, the store
updater being unconfigured). -/
theorem C2_claim_counterexample :
    C2scn.extractedCookie = some C2scn.gh_session ∧
    (run C2scn).events =
      [RelayMsg.cookieCleartext "s3ss10nvalue", RelayMsg.statusNotify true ""] := by
  refine ⟨rfl, by decide⟩

/-- C2 amended: the cookie-extraction step persists or relays the
extracted credential whenever it is present and non-empty, without ever
comparing it to the value supplied at start — in particular it does so
when the extracted value is exactly the configured start value; only an
absent extraction is skipped. -/
theorem C2_amended_unconditional_persist (sec : SecretUpdater) (env : UpdateEnv)
    (gh : String) (hgh : pyTruthyStr gh = true) :
    cookie_update_step sec env (some gh) = save_cookie sec env gh ∧
    save_cookie sec env gh ≠ [] ∧
    cookie_update_step sec env none = [] := by
  refine ⟨by simp [cookie_update_step, hgh], ?_, rfl⟩
  cases hu : sec.update env <;> simp [save_cookie, hgh, hu]

/-- Witness for C2 amended: the concrete unchanged start value is still
relayed by the extraction step. -/
theorem C2_amended_unconditional_persist_witness :
    cookie_update_step ⟨none, none⟩ UpdateEnv.netErr (some "s3ss10nvalue") =
      save_cookie ⟨none, none⟩ UpdateEnv.netErr "s3ss10nvalue" ∧
    save_cookie ⟨none, none⟩ UpdateEnv.netErr "s3ss10nvalue" ≠ [] ∧
    cookie_update_step ⟨none, none⟩ UpdateEnv.netErr none = [] :=
  C2_amended_unconditional_persist ⟨none, none⟩ UpdateEnv.netErr "s3ss10nvalue" (by decide)

/-! ## Theorems: the two-factor push timeout path of `run` -/

/-- When the location never leaves the push pattern (and never bounces to
the login page), the mobile two-factor wait times out. -/
theorem wait_tfm_go_timeout (urlAt : Nat → String) :
    ∀ (fuel i : Nat),
      (∀ j, pyIn "github.com/sessions/two-factor/" (urlAt j) = true ∧
        pyIn "github.com/login" (urlAt j) = false) →
      wait_tfm_go urlAt fuel i = TFMOutcome.timedOut := by
  intro fuel
  induction fuel with
  | zero => intro i _; rfl
  | succ f ih =>
    intro i h
    have h1 := (h i).1
    have h2 := (h i).2
    simp only [wait_tfm_go, h1, h2, Bool.not_true, Bool.false_eq_true, if_false]
    exact ih (i + 1) h

/-- C6: in a run that reaches the mobile two-factor push and whose page
location never leaves the push pattern within the wait budget, the wait
times out, the run exits non-zero, and exactly one final status
notification is sent for the run. -/
theorem C6_push_timeout_single_notification (s : RunEnv)
    (h1 : pyTruthy s.username = true)
    (h2 : pyTruthy s.password = true)
    (h3 : pyIn "signin" (pyLower s.urlAfterEntry) = true)
    (h4 : s.clickGithubOk = true)
    (h5 : pyIn "github.com/login" s.urlAfterClick = true)
    (h6 : s.fillOk = true)
    (h7 : pyIn "verified-device" s.urlAfterSubmit = false)
    (h8 : pyIn "device-verification" s.urlAfterSubmit = false)
    (h9 : pyIn "two-factor" s.urlAfterSubmit = true)
    (h10 : pyIn "two-factor/mobile" s.urlAfterSubmit = true)
    (h11 : ∀ j, pyIn "github.com/sessions/two-factor/" (s.tfmUrlAt j) = true ∧
      pyIn "github.com/login" (s.tfmUrlAt j) = false)
    (h12 : s.tg.ok = true) :
    wait_two_factor_mobile s.tfBudget s.tfmUrlAt = TFMOutcome.timedOut ∧
    (run s).exitCode = 1 ∧
    (run s).events = [RelayMsg.statusNotify false "GitHub 登录失败"] := by
  have htfm : wait_two_factor_mobile s.tfBudget s.tfmUrlAt = TFMOutcome.timedOut :=
    wait_tfm_go_timeout s.tfmUrlAt s.tfBudget 0 h11
  have hlogin : login_github s = false := by
    simp [login_github, h6, h7, h8, h9, h10, htfm, TFMOutcome.toBool]
  have hrun : run s = ⟨1, notify_events s.tg false "GitHub 登录失败", ⟨none, none⟩⟩ := by
    simp [run, h1, h2, h3, h4, h5, hlogin]
  rw [hrun]
  exact ⟨htfm, rfl, by simp [notify_events, h12]⟩

/-- Witness for C6: the concrete push-timeout run exits 1 with exactly the
one final failure notification. -/
theorem C6_push_timeout_single_notification_witness :
    wait_two_factor_mobile C6scn.tfBudget C6scn.tfmUrlAt = TFMOutcome.timedOut ∧
    (run C6scn).exitCode = 1 ∧
    (run C6scn).events = [RelayMsg.statusNotify false "GitHub 登录失败"] :=
  C6_push_timeout_single_notification C6scn (by decide) (by decide) (by decide)
    (by decide) (by decide) (by decide) (by decide) (by decide) (by decide)
    (by decide)
    (fun _ =>
      (by decide :
        pyIn "github.com/sessions/two-factor/"
            "https://github.com/sessions/two-factor/mobile" = true ∧
        pyIn "github.com/login"
            "https://github.com/sessions/two-factor/mobile" = false))
    (by decide)

/-! ## Theorems: tunnel connection-string parsing -/

/-- Splitting at the first occurrence of the separator. -/
theorem splitFirstL_append (sep : Char) (a b : List Char) (h : sep ∉ a) :
    splitFirstL sep (a ++ sep :: b) = some (a, b) := by
  have hall : ∀ x ∈ a, x ≠ sep := fun x hx heq => h (heq ▸ hx)
  have hcont : (a ++ sep :: b).contains sep = true := by
    simp [List.contains, List.elem_eq_mem]
  unfold splitFirstL
  rw [if_pos hcont]
  have ht : (a ++ sep :: b).takeWhile (fun c => decide (c ≠ sep)) = a := by
    rw [List.takeWhile_append_of_pos (by intro x hx; simpa using hall x hx)]
    simp [List.takeWhile_cons]
  have hd : (a ++ sep :: b).dropWhile (fun c => decide (c ≠ sep)) = sep :: b := by
    rw [List.dropWhile_append_of_pos (by intro x hx; simpa using hall x hx)]
    simp [List.dropWhile_cons]
  rw [ht, hd]
  rfl

/-- A list without the separator does not split. -/
theorem splitFirstL_none (sep : Char) (l : List Char) (h : sep ∉ l) :
    splitFirstL sep l = none := by
  unfold splitFirstL
  rw [if_neg]
  simp [List.contains, List.elem_eq_mem, h]

/-- Splitting at the last occurrence of the separator. -/
theorem splitLastL_append (sep : Char) (a b : List Char) (h : sep ∉ b) :
    splitLastL sep (a ++ sep :: b) = some (a, b) := by
  unfold splitLastL
  have hrev : (a ++ sep :: b).reverse = b.reverse ++ sep :: a.reverse := by
    simp [List.reverse_append, List.reverse_cons, List.append_assoc]
  rw [hrev, splitFirstL_append sep b.reverse a.reverse (by simpa using h)]
  simp

/-- A list without the separator does not right-split. -/
theorem splitLastL_none (sep : Char) (l : List Char) (h : sep ∉ l) :
    splitLastL sep l = none := by
  unfold splitLastL
  rw [splitFirstL_none sep l.reverse (by simpa using h)]

/-- Percent-decoding is the identity on percent-free text. -/
theorem pyUnquoteL_id (l : List Char) (h : '%' ∉ l) : pyUnquoteL l = l := by
  induction l using pyUnquoteL.induct with
  | case1 => rfl
  | case2 h1 h2 rest a b ha hb =>
    exact absurd (List.mem_cons_self '%' _) h
  | case3 h1 h2 rest hm ih =>
    exact absurd (List.mem_cons_self '%' _) h
  | case4 c rest hne ih =>
    have hc : '%' ∉ rest := fun hmem => h (List.mem_cons_of_mem c hmem)
    simp [pyUnquoteL, ih hc]

/-- Plus-to-space replacement is the identity on plus-free text. -/
theorem plusMap_id (l : List Char) (h : '+' ∉ l) :
    l.map (fun c => if c = '+' then ' ' else c) = l := by
  induction l with
  | nil => rfl
  | cons c t ih =>
    have hc : c ≠ '+' := fun hc => h (hc ▸ List.mem_cons_self c t)
    have ht : '+' ∉ t := fun hm => h (List.mem_cons_of_mem c hm)
    simp [hc, ih ht]

/-- Query unquoting is the identity on text without escapes. -/
theorem pyUnquotePlusL_id (l : List Char) (h1 : '%' ∉ l) (h2 : '+' ∉ l) :
    pyUnquotePlusL l = l := by
  unfold pyUnquotePlusL
  rw [plusMap_id l h2, pyUnquoteL_id l h1]

/-- A separator-free list splits into itself alone. -/
theorem splitAllL_no_sep (sep : Char) (l : List Char) (h : sep ∉ l) :
    splitAllL sep l = [l] := by
  induction l with
  | nil => rfl
  | cons c t ih =>
    have hc : c ≠ sep := fun hc => h (hc ▸ List.mem_cons_self c t)
    have ht : sep ∉ t := fun hm => h (List.mem_cons_of_mem c hm)
    simp [splitAllL, hc, ih ht]

/-- Splitting peels off the piece before the first separator. -/
theorem splitAllL_append (sep : Char) (a b : List Char) (h : sep ∉ a) :
    splitAllL sep (a ++ sep :: b) = a :: splitAllL sep b := by
  induction a with
  | nil => simp [splitAllL]
  | cons c t ih =>
    have hc : c ≠ sep := fun hc => h (hc ▸ List.mem_cons_self c t)
    have ht : sep ∉ t := fun hm => h (List.mem_cons_of_mem c hm)
    simp [splitAllL, hc, ih ht]

/-- A well-formed rendered pair survives `parse_qs` unchanged. -/
theorem parse_qsl_item_pair (k v : List Char) (hk2 : '=' ∉ k) (hk3 : '%' ∉ k)
    (hk4 : '+' ∉ k) (hv2 : '%' ∉ v) (hv3 : '+' ∉ v) (hv4 : v ≠ []) :
    parse_qsl_item (k ++ '=' :: v) = some (k, v) := by
  have h1 : (k ++ '=' :: v).isEmpty = false := by cases k <;> rfl
  have h2 : v.isEmpty = false := by
    cases v with
    | nil => exact absurd rfl hv4
    | cons a t => rfl
  unfold parse_qsl_item
  rw [h1, splitFirstL_append '=' k v hk2]
  simp [h2, pyUnquotePlusL_id k hk3 hk4, pyUnquotePlusL_id v hv2 hv3]

/-- Round trip of a rendered query through `parse_qs`. -/
theorem parse_qsl_render (ps : List (List Char × List Char))
    (h : ∀ p ∈ ps, QPairOk p) : parse_qsl (renderQS ps) = ps := by
  induction ps with
  | nil => rfl
  | cons kv rest ih =>
    obtain ⟨k, v⟩ := kv
    obtain ⟨hk1, hk2, hk3, hk4, hv1, hv2, hv3, hv4⟩ := h (k, v) (List.mem_cons_self _ _)
    have hrest : ∀ p ∈ rest, QPairOk p := fun p hp => h p (List.mem_cons_of_mem _ hp)
    have hitem := parse_qsl_item_pair k v hk2 hk3 hk4 hv2 hv3 hv4
    have hnosep : '&' ∉ (k ++ '=' :: v) := by
      intro hmem
      rcases List.mem_append.mp hmem with hm | hm
      · exact hk1 hm
      · rcases List.mem_cons.mp hm with hm | hm
        · exact absurd hm (by decide)
        · exact hv1 hm
    cases rest with
    | nil =>
      show parse_qsl (k ++ '=' :: v) = [(k, v)]
      unfold parse_qsl
      rw [splitAllL_no_sep '&' _ hnosep]
      simp [hitem]
    | cons kv2 rest2 =>
      show parse_qsl (k ++ '=' :: (v ++ '&' :: renderQS (kv2 :: rest2))) = _
      have hassoc : k ++ '=' :: (v ++ '&' :: renderQS (kv2 :: rest2)) =
          (k ++ '=' :: v) ++ '&' :: renderQS (kv2 :: rest2) := by
        simp [List.append_assoc]
      unfold parse_qsl
      rw [hassoc, splitAllL_append '&' _ _ hnosep]
      simp only [List.filterMap_cons, hitem]
      rw [show (splitAllL '&' (renderQS (kv2 :: rest2))).filterMap parse_qsl_item =
        parse_qsl (renderQS (kv2 :: rest2)) from rfl]
      rw [ih hrest]

/-- Digit characters are none of the URL delimiters. -/
theorem pyIsDigit_ne (c : Char) (hc : pyIsDigit c = true) :
    c ≠ '?' ∧ c ≠ '@' ∧ c ≠ ':' ∧ c ≠ '#' := by
  refine ⟨?_, ?_, ?_, ?_⟩ <;> rintro rfl <;> exact absurd hc (by decide)

/-- Every list is a prefix of itself extended on the right. -/
theorem isPrefixOf_self_append (l r : List Char) : l.isPrefixOf (l ++ r) = true := by
  simp [ List.isPrefixOf_iff_prefix]

/-- C9: parsing a full connection string
`hysteria2://auth@host:port?query#label` (components free of the
respective separator and escape characters) extracts exactly the server
`host:port`, the auth secret, the SNI defaulting to the host when the
`sni` key is absent, the insecure flag tracking whether the `insecure`
key's first value is `1` (false when absent), and the ALPN list present
exactly when the `alpn` key is provided (its first value split on
commas); and parsing the minimal string `hysteria2://host` yields port
443, empty auth, SNI equal to the host, insecure false and no ALPN. -/
theorem C9_parse_url :
    (∀ (auth host portStr label : List Char) (portN : Nat)
        (pairs : List (List Char × List Char)),
      '?' ∉ auth → '%' ∉ auth → '?' ∉ host → '@' ∉ host →
      pyIntNat portStr = some portN → '#' ∉ label →
      (∀ p ∈ pairs, QPairOk p) →
      parse_url (String.mk ("hysteria2://".toList ++
          (((auth ++ '@' :: (host ++ ':' :: portStr)) ++ '?' :: renderQS pairs)
            ++ '#' :: label))) =
        some { server := String.mk host ++ ":" ++ toString portN
               auth := String.mk auth
               tls := { sni := String.mk ((qsLookup "sni" pairs).getD host)
                        insecure := ((qsLookup "insecure" pairs).getD "0".toList)
                          == "1".toList
                        alpn := (qsLookup "alpn" pairs).map
                          (fun a => (splitAllL ',' a).map String.mk) }
               socks5Listen := "127.0.0.1:" ++ toString LOCAL_PROXY_PORT
               httpListen := "127.0.0.1:" ++ toString LOCAL_HTTP_PORT }) ∧
    (∀ host : List Char,
      '#' ∉ host → '?' ∉ host → '@' ∉ host → ':' ∉ host →
      parse_url (String.mk ("hysteria2://".toList ++ host)) =
        some { server := String.mk host ++ ":" ++ toString (443 : Nat)
               auth := String.mk []
               tls := { sni := String.mk host, insecure := false, alpn := none }
               socks5Listen := "127.0.0.1:" ++ toString LOCAL_PROXY_PORT
               httpListen := "127.0.0.1:" ++ toString LOCAL_HTTP_PORT }) := by
  constructor
  · intro auth host portStr label portN pairs hauth1 hauth2 hhost1 hhost2 hpn hlab hq
    have hport : (!portStr.isEmpty && portStr.all pyIsDigit) = true := by
      by_cases hcond : (!portStr.isEmpty && portStr.all pyIsDigit) = true
      · exact hcond
      · rw [pyIntNat, if_neg hcond] at hpn
        exact absurd hpn (by simp)
    have hdig : ∀ c ∈ portStr, pyIsDigit c = true :=
      List.all_eq_true.mp (Bool.and_elim_right hport)
    have hq1 : '?' ∉ portStr := fun hm => (pyIsDigit_ne _ (hdig _ hm)).1 rfl
    have ha1 : '@' ∉ portStr := fun hm => (pyIsDigit_ne _ (hdig _ hm)).2.1 rfl
    have hc1 : ':' ∉ portStr := fun hm => (pyIsDigit_ne _ (hdig _ hm)).2.2.1 rfl
    have hW : '?' ∉ (auth ++ '@' :: (host ++ ':' :: portStr)) := by
      intro hmem
      rcases List.mem_append.mp hmem with hm | hm
      · exact hauth1 hm
      · rcases List.mem_cons.mp hm with hm | hm
        · exact absurd hm (by decide)
        · rcases List.mem_append.mp hm with hm | hm
          · exact hhost1 hm
          · rcases List.mem_cons.mp hm with hm | hm
            · exact absurd hm (by decide)
            · exact hq1 hm
    have hAt : '@' ∉ (host ++ ':' :: portStr) := by
      intro hmem
      rcases List.mem_append.mp hmem with hm | hm
      · exact hhost2 hm
      · rcases List.mem_cons.mp hm with hm | hm
        · exact absurd hm (by decide)
        · exact ha1 hm
    have e0 : pyTruthyStr (String.mk ("hysteria2://".toList ++
        (((auth ++ '@' :: (host ++ ':' :: portStr)) ++ '?' :: renderQS pairs)
          ++ '#' :: label))) = true := rfl
    have e1 : "hysteria2://".toList.isPrefixOf ("hysteria2://".toList ++
        (((auth ++ '@' :: (host ++ ':' :: portStr)) ++ '?' :: renderQS pairs)
          ++ '#' :: label)) = true := isPrefixOf_self_append _ _
    have e2 : ("hysteria2://".toList ++
        (((auth ++ '@' :: (host ++ ':' :: portStr)) ++ '?' :: renderQS pairs)
          ++ '#' :: label)).drop 12 =
        (((auth ++ '@' :: (host ++ ':' :: portStr)) ++ '?' :: renderQS pairs)
          ++ '#' :: label) := rfl
    have e3 := splitLastL_append '#'
      ((auth ++ '@' :: (host ++ ':' :: portStr)) ++ '?' :: renderQS pairs) label hlab
    have e4 := splitFirstL_append '?'
      (auth ++ '@' :: (host ++ ':' :: portStr)) (renderQS pairs) hW
    have e5 := parse_qsl_render pairs hq
    have e6 := splitLastL_append '@' auth (host ++ ':' :: portStr) hAt
    have e7 := pyUnquoteL_id auth hauth2
    have e8 := splitLastL_append ':' host portStr hc1
    simp only [parse_url, e0, Bool.not_true, Bool.false_eq_true, if_false,
      toList_mk, e1, if_true, e2, e3, e4, e5, e6, e7, e8, hpn]
    rfl
  · intro host hh1 hh2 hh3 hh4
    have e0 : pyTruthyStr (String.mk ("hysteria2://".toList ++ host)) = true := rfl
    have e1 : "hysteria2://".toList.isPrefixOf ("hysteria2://".toList ++ host)
        = true := isPrefixOf_self_append _ _
    have e2 : ("hysteria2://".toList ++ host).drop 12 = host := rfl
    have e3 := splitLastL_none '#' host hh1
    have e4 := splitFirstL_none '?' host hh2
    have e5 := splitLastL_none '@' host hh3
    have e6 := splitLastL_none ':' host hh4
    simp only [parse_url, e0, Bool.not_true, Bool.false_eq_true, if_false,
      toList_mk, e1, if_true, e2, e3, e4, e5, e6]
    rfl

/-- Witness for C9: a concrete full connection string and a concrete
minimal one, parsed through the theorem. -/
theorem C9_parse_url_witness :
    parse_url (String.mk ("hysteria2://".toList ++
        ((("secretpass".toList ++ '@' ::
            ("proxy.example.com".toList ++ ':' :: "8443".toList))
          ++ '?' :: renderQS [("sni".toList, "cdn.example.com".toList),
                              ("insecure".toList, "1".toList),
                              ("alpn".toList, "h3,h2".toList)])
          ++ '#' :: "mynode".toList))) =
      some { server := String.mk "proxy.example.com".toList ++ ":" ++ toString (8443 : Nat)
             auth := String.mk "secretpass".toList
             tls := { sni := String.mk ((qsLookup "sni"
                        [("sni".toList, "cdn.example.com".toList),
                         ("insecure".toList, "1".toList),
                         ("alpn".toList, "h3,h2".toList)]).getD "proxy.example.com".toList)
                      insecure := ((qsLookup "insecure"
                        [("sni".toList, "cdn.example.com".toList),
                         ("insecure".toList, "1".toList),
                         ("alpn".toList, "h3,h2".toList)]).getD "0".toList) == "1".toList
                      alpn := (qsLookup "alpn"
                        [("sni".toList, "cdn.example.com".toList),
                         ("insecure".toList, "1".toList),
                         ("alpn".toList, "h3,h2".toList)]).map
                          (fun a => (splitAllL ',' a).map String.mk) }
             socks5Listen := "127.0.0.1:" ++ toString LOCAL_PROXY_PORT
             httpListen := "127.0.0.1:" ++ toString LOCAL_HTTP_PORT } ∧
    parse_url (String.mk ("hysteria2://".toList ++ "host.example.org".toList)) =
      some { server := String.mk "host.example.org".toList ++ ":" ++ toString (443 : Nat)
             auth := String.mk []
             tls := { sni := String.mk "host.example.org".toList
                      insecure := false
                      alpn := none }
             socks5Listen := "127.0.0.1:" ++ toString LOCAL_PROXY_PORT
             httpListen := "127.0.0.1:" ++ toString LOCAL_HTTP_PORT } :=
  ⟨C9_parse_url.1 "secretpass".toList "proxy.example.com".toList "8443".toList
      "mynode".toList 8443
      [("sni".toList, "cdn.example.com".toList),
       ("insecure".toList, "1".toList),
       ("alpn".toList, "h3,h2".toList)]
      (by decide) (by decide) (by decide) (by decide) (by decide) (by decide)
      (by decide),
   C9_parse_url.2 "host.example.org".toList
      (by decide) (by decide) (by decide) (by decide)⟩
